import Mathlib

/-!
Shallow embedding of the Green-Hydrogen-Subsidy repository's two Solidity
contracts, `GreenHydrogenSubsidy` and `DataOracle`, together with proofs of
the spec's claims about them.

Conventions of the embedding:
* addresses are `Nat` (`0` models `address(0)`);
* `uint256` amounts and timestamps are `Nat`; `SafeMath.add` on `uint256`
  reverts on overflow and never wraps, so unbounded `Nat` addition is a
  faithful model of every non-reverting execution, while `SafeMath.sub`
  is modelled with an explicit underflow check;
* `block.timestamp` is passed to each operation as an explicit `now`
  argument;
* each external function is a map `State -> Except String State`; an
  `Except.error` models a reverted transaction (every `require` failure
  rolls back all writes of the whole call), and the message is the
  Solidity revert string;
* Solidity mappings are functions into `Option`; reading a never-written
  key yields the zero-initialised struct, as in the EVM, via `getD`;
* `address(this).balance` is tracked in the field `balance`: it grows by
  `msg.value` on the two payable entry points and shrinks on `transfer`.
  Force-feeding ether via `selfdestruct` is outside the model.
-/

namespace GHS

/-- The roles of the `GreenHydrogenSubsidy` contract: the four declared
`bytes32` role constants plus OpenZeppelin's `DEFAULT_ADMIN_ROLE`. -/
inductive Role where
  | DefaultAdmin
  | Government
  | Auditor
  | Oracle
  | Producer
deriving DecidableEq

/-- Source `enum ProjectStatus { Pending, Active, Completed, Suspended, Cancelled }` -/
inductive ProjectStatus where
  | Pending
  | Active
  | Completed
  | Suspended
  | Cancelled
deriving DecidableEq

/-- Source `enum MilestoneStatus { Pending, Verified, Failed, Disputed }` -/
inductive MilestoneStatus where
  | Pending
  | Verified
  | Failed
  | Disputed
deriving DecidableEq

/-- The `Project` struct.  Its nested `mapping(uint256 => bool)
milestoneExists` is the function-valued field `milestoneFlag` (written by
`addMilestone`, never read elsewhere in the contract). -/
structure Project where
  id : Nat
  producer : Nat
  name : String
  description : String
  totalSubsidyAmount : Nat
  disbursedAmount : Nat
  createdAt : Nat
  status : ProjectStatus
  milestoneIds : List Nat
  milestoneFlag : Nat → Bool

/-- The `Milestone` struct. -/
structure Milestone where
  id : Nat
  projectId : Nat
  description : String
  subsidyAmount : Nat
  targetValue : Nat
  actualValue : Nat
  verificationSource : String
  deadline : Nat
  status : MilestoneStatus
  verifiedAt : Nat
  verifiedBy : Nat
  paid : Bool

/-- The events declared by `GreenHydrogenSubsidy`. -/
inductive Event where
  | ProjectRegistered (projectId producer : Nat) (name : String) (totalSubsidy : Nat)
  | MilestoneAdded (projectId milestoneId : Nat) (description : String) (subsidyAmount : Nat)
  | MilestoneVerified (milestoneId actualValue verifier : Nat)
  | SubsidyDisbursed (projectId milestoneId recipient amount : Nat)
  | ProjectStatusChanged (projectId : Nat) (oldStatus newStatus : ProjectStatus)
  | FundsAdded (amount newTotal : Nat)
  | FundsWithdrawn (amount recipient : Nat)
deriving DecidableEq

/-- Contract storage plus the native ether balance and the event log. -/
structure State where
  roles : Nat → Role → Bool
  projects : Nat → Option Project
  milestones : Nat → Option Milestone
  producerProjects : Nat → List Nat
  nextProjectId : Nat
  nextMilestoneId : Nat
  totalSubsidyPool : Nat
  totalDisbursed : Nat
  balance : Nat
  paused : Bool
  events : List Event

/-- Zero-initialised `Project` struct (EVM mapping default). -/
def zeroProject : Project :=
  { id := 0, producer := 0, name := "", description := "",
    totalSubsidyAmount := 0, disbursedAmount := 0, createdAt := 0,
    status := ProjectStatus.Pending, milestoneIds := [],
    milestoneFlag := fun _ => false }

/-- Zero-initialised `Milestone` struct (EVM mapping default). -/
def zeroMilestone : Milestone :=
  { id := 0, projectId := 0, description := "", subsidyAmount := 0,
    targetValue := 0, actualValue := 0, verificationSource := "",
    deadline := 0, status := MilestoneStatus.Pending, verifiedAt := 0,
    verifiedBy := 0, paid := false }

/-- Source `projects[_projectId]` — reading a mapping never fails. -/
def getProject (s : State) (i : Nat) : Project :=
  (s.projects i).getD zeroProject

/-- Source `milestones[_milestoneId]` — reading a mapping never fails. -/
def getMilestone (s : State) (i : Nat) : Milestone :=
  (s.milestones i).getD zeroMilestone

/-- Source `hasRole(role, account)` of `AccessControl`. -/
def hasRole (s : State) (a : Nat) (r : Role) : Bool :=
  s.roles a r

/-- Point update of a role assignment (OpenZeppelin `_grantRole`). -/
def grantR (f : Nat → Role → Bool) (a : Nat) (r : Role) : Nat → Role → Bool :=
  fun x y => if x = a ∧ y = r then true else f x y

/-- Point update of a role assignment (OpenZeppelin `_revokeRole`). -/
def revokeR (f : Nat → Role → Bool) (a : Nat) (r : Role) : Nat → Role → Bool :=
  fun x y => if x = a ∧ y = r then false else f x y

/-- Point update of the `projects` mapping. -/
def pupd (f : Nat → Option Project) (i : Nat) (p : Project) : Nat → Option Project :=
  fun j => if j = i then some p else f j

/-- Point update of the `milestones` mapping. -/
def mupd (f : Nat → Option Milestone) (i : Nat) (m : Milestone) : Nat → Option Milestone :=
  fun j => if j = i then some m else f j

/-- The constructor: deployer receives `DEFAULT_ADMIN_ROLE` and
`GOVERNMENT_ROLE`; counters start at 1; pool, disbursed and balance at 0. -/
def init (deployer : Nat) : State :=
  { roles := fun a r =>
      if a = deployer ∧ (r = Role.DefaultAdmin ∨ r = Role.Government) then true else false,
    projects := fun _ => none,
    milestones := fun _ => none,
    producerProjects := fun _ => [],
    nextProjectId := 1,
    nextMilestoneId := 1,
    totalSubsidyPool := 0,
    totalDisbursed := 0,
    balance := 0,
    paused := false,
    events := [] }

/-- Source `addFunds()` — `external payable onlyGovernment`. -/
def addFunds (sender value : Nat) (s : State) : Except String State :=
  if hasRole s sender Role.Government then
    if value > 0 then
      Except.ok { s with
        totalSubsidyPool := s.totalSubsidyPool + value,
        balance := s.balance + value,
        events := s.events ++ [Event.FundsAdded value (s.totalSubsidyPool + value)] }
    else Except.error "Amount must be greater than 0"
  else Except.error "Only government can perform this action"

/-- Source `receive()` — `external payable`, no role gate, no pause gate. -/
def receiveEther (_sender value : Nat) (s : State) : Except String State :=
  Except.ok { s with
    totalSubsidyPool := s.totalSubsidyPool + value,
    balance := s.balance + value,
    events := s.events ++ [Event.FundsAdded value (s.totalSubsidyPool + value)] }

/-- Source `registerProject` — `external onlyGovernment`.  Note: it carries no
`whenNotPaused` modifier, so the pause flag is not consulted.  The final
`grantRole(PRODUCER_ROLE, _producer)` is OpenZeppelin's public `grantRole`,
which additionally requires the caller to hold the role's admin role
(`DEFAULT_ADMIN_ROLE`). -/
def registerProject (sender producer : Nat) (name description : String)
    (totalSubsidyAmount now : Nat) (s : State) : Except String State :=
  if hasRole s sender Role.Government then
    if producer ≠ 0 then
      if name.length > 0 then
        if totalSubsidyAmount > 0 then
          -- totalSubsidyPool.sub(totalDisbursed) : SafeMath sub reverts on underflow
          if s.totalSubsidyPool < s.totalDisbursed then
            Except.error "SafeMath: subtraction overflow"
          else if totalSubsidyAmount ≤ s.totalSubsidyPool - s.totalDisbursed then
            if hasRole s sender Role.DefaultAdmin then
              let pid := s.nextProjectId
              Except.ok { s with
                nextProjectId := pid + 1,
                projects := pupd s.projects pid
                  { id := pid, producer := producer, name := name,
                    description := description,
                    totalSubsidyAmount := totalSubsidyAmount,
                    disbursedAmount := 0, createdAt := now,
                    status := ProjectStatus.Pending, milestoneIds := [],
                    milestoneFlag := fun _ => false },
                producerProjects := fun a =>
                  if a = producer then s.producerProjects a ++ [pid]
                  else s.producerProjects a,
                roles := grantR s.roles producer Role.Producer,
                events := s.events ++
                  [Event.ProjectRegistered pid producer name totalSubsidyAmount] }
            else Except.error "AccessControl: account is missing role"
          else Except.error "Insufficient subsidy pool"
        else Except.error "Subsidy amount must be greater than 0"
      else Except.error "Project name cannot be empty"
    else Except.error "Invalid producer address"
  else Except.error "Only government can perform this action"

/-- Source `addMilestone` — `external onlyGovernment projectExists(_projectId)`. -/
def addMilestone (sender projectId : Nat) (description : String)
    (subsidyAmount targetValue : Nat) (verificationSource : String)
    (deadline now : Nat) (s : State) : Except String State :=
  if hasRole s sender Role.Government then
    if 0 < projectId ∧ projectId < s.nextProjectId then
      if description.length > 0 then
        if subsidyAmount > 0 then
          if targetValue > 0 then
            if deadline > now then
              let p := getProject s projectId
              if p.status = ProjectStatus.Pending ∨ p.status = ProjectStatus.Active then
                if p.disbursedAmount + subsidyAmount ≤ p.totalSubsidyAmount then
                  let mid := s.nextMilestoneId
                  let p1 : Project := { p with
                    milestoneIds := p.milestoneIds ++ [mid],
                    milestoneFlag := fun j => if j = mid then true else p.milestoneFlag j }
                  let activated := p.status = ProjectStatus.Pending
                  let p2 : Project :=
                    if activated then { p1 with status := ProjectStatus.Active } else p1
                  Except.ok { s with
                    nextMilestoneId := mid + 1,
                    milestones := mupd s.milestones mid
                      { id := mid, projectId := projectId,
                        description := description,
                        subsidyAmount := subsidyAmount,
                        targetValue := targetValue, actualValue := 0,
                        verificationSource := verificationSource,
                        deadline := deadline,
                        status := MilestoneStatus.Pending,
                        verifiedAt := 0, verifiedBy := 0, paid := false },
                    projects := pupd s.projects projectId p2,
                    events := s.events ++
                      (if activated then
                        [Event.ProjectStatusChanged projectId ProjectStatus.Pending
                          ProjectStatus.Active]
                       else []) ++
                      [Event.MilestoneAdded projectId mid description subsidyAmount] }
                else Except.error "Exceeds project subsidy limit"
              else Except.error "Project not active"
            else Except.error "Deadline must be in the future"
          else Except.error "Target value must be greater than 0"
        else Except.error "Subsidy amount must be greater than 0"
      else Except.error "Description cannot be empty"
    else Except.error "Project does not exist"
  else Except.error "Only government can perform this action"

/-- Source `_checkProjectCompletion` — the loop over `milestoneIds` with early
break computes exactly `List.all` of "Verified and paid". -/
def checkProjectCompletion (projectId : Nat) (s : State) : State :=
  let p := getProject s projectId
  let allDone := p.milestoneIds.all fun i =>
    decide ((getMilestone s i).status = MilestoneStatus.Verified) && (getMilestone s i).paid
  if allDone ∧ p.milestoneIds.length > 0 then
    { s with
      projects := pupd s.projects projectId { p with status := ProjectStatus.Completed },
      events := s.events ++
        [Event.ProjectStatusChanged projectId p.status ProjectStatus.Completed] }
  else s

/-- Source `_processMilestonePayment` — internal; its `require` failures revert the
whole enclosing transaction. -/
def processMilestonePayment (milestoneId : Nat) (s : State) : Except String State :=
  let m := getMilestone s milestoneId
  if m.status = MilestoneStatus.Verified then
    if m.paid = false then
      let p := getProject s m.projectId
      if p.status = ProjectStatus.Active then
        let paymentAmount := m.subsidyAmount
        if paymentAmount ≤ s.balance then
          let s1 : State := { s with
            milestones := mupd s.milestones milestoneId { m with paid := true },
            projects := pupd s.projects m.projectId
              { p with disbursedAmount := p.disbursedAmount + paymentAmount },
            totalDisbursed := s.totalDisbursed + paymentAmount,
            balance := s.balance - paymentAmount,
            events := s.events ++
              [Event.SubsidyDisbursed m.projectId milestoneId p.producer paymentAmount] }
          Except.ok (checkProjectCompletion m.projectId s1)
        else Except.error "Insufficient contract balance"
      else Except.error "Project not active"
    else Except.error "Already paid"
  else Except.error "Milestone not verified"

/-- Source `verifyMilestone` — oracle or auditor; on success sets `Verified` and
synchronously attempts payment (whose failure reverts everything). -/
def verifyMilestone (sender milestoneId actualValue : Nat) (success : Bool)
    (now : Nat) (s : State) : Except String State :=
  if 0 < milestoneId ∧ milestoneId < s.nextMilestoneId then
    if hasRole s sender Role.Oracle ∨ hasRole s sender Role.Auditor then
      let m := getMilestone s milestoneId
      if m.status = MilestoneStatus.Pending then
        if now ≤ m.deadline then
          let m1 : Milestone := { m with
            actualValue := actualValue, verifiedAt := now, verifiedBy := sender }
          if success ∧ actualValue ≥ m.targetValue then
            let s1 : State := { s with
              milestones := mupd s.milestones milestoneId
                { m1 with status := MilestoneStatus.Verified } }
            (processMilestonePayment milestoneId s1).map fun s2 =>
              { s2 with events := s2.events ++
                [Event.MilestoneVerified milestoneId actualValue sender] }
          else
            Except.ok { s with
              milestones := mupd s.milestones milestoneId
                { m1 with status := MilestoneStatus.Failed },
              events := s.events ++
                [Event.MilestoneVerified milestoneId actualValue sender] }
        else Except.error "Milestone deadline passed"
      else Except.error "Milestone already processed"
    else Except.error "Unauthorized verifier"
  else Except.error "Milestone does not exist"

/-- Source `updateProjectStatus` — `onlyGovernment projectExists`. -/
def updateProjectStatus (sender projectId : Nat) (newStatus : ProjectStatus)
    (s : State) : Except String State :=
  if hasRole s sender Role.Government then
    if 0 < projectId ∧ projectId < s.nextProjectId then
      let p := getProject s projectId
      Except.ok { s with
        projects := pupd s.projects projectId { p with status := newStatus },
        events := s.events ++
          [Event.ProjectStatusChanged projectId p.status newStatus] }
    else Except.error "Project does not exist"
  else Except.error "Only government can perform this action"

/-- Source `disputeMilestone` — producer of the owning project or government. -/
def disputeMilestone (sender milestoneId : Nat) (s : State) : Except String State :=
  if 0 < milestoneId ∧ milestoneId < s.nextMilestoneId then
    let m := getMilestone s milestoneId
    let p := getProject s m.projectId
    if sender = p.producer ∨ hasRole s sender Role.Government then
      if m.status = MilestoneStatus.Failed ∨ m.status = MilestoneStatus.Verified then
        Except.ok { s with
          milestones := mupd s.milestones milestoneId
            { m with status := MilestoneStatus.Disputed } }
      else Except.error "Cannot dispute pending milestone"
    else Except.error "Unauthorized to dispute"
  else Except.error "Milestone does not exist"

/-- Source `resolveDispute` — `onlyAuditor milestoneExists`; approval re-enters the
payment path only when `paid` is still false. -/
def resolveDispute (sender milestoneId : Nat) (approve : Bool)
    (s : State) : Except String State :=
  if hasRole s sender Role.Auditor then
    if 0 < milestoneId ∧ milestoneId < s.nextMilestoneId then
      let m := getMilestone s milestoneId
      if m.status = MilestoneStatus.Disputed then
        if approve then
          let s1 : State := { s with
            milestones := mupd s.milestones milestoneId
              { m with status := MilestoneStatus.Verified } }
          if m.paid then Except.ok s1
          else processMilestonePayment milestoneId s1
        else
          Except.ok { s with
            milestones := mupd s.milestones milestoneId
              { m with status := MilestoneStatus.Failed } }
      else Except.error "Milestone not disputed"
    else Except.error "Milestone does not exist"
  else Except.error "Only auditor can perform this action"

/-- Source `emergencyWithdraw` — `onlyGovernment nonReentrant`; moves ether out of
the contract without touching `totalSubsidyPool` or `totalDisbursed`. -/
def emergencyWithdraw (sender amount recipient : Nat) (s : State) :
    Except String State :=
  if hasRole s sender Role.Government then
    if amount ≤ s.balance then
      if recipient ≠ 0 then
        Except.ok { s with
          balance := s.balance - amount,
          events := s.events ++ [Event.FundsWithdrawn amount recipient] }
      else Except.error "Invalid recipient"
    else Except.error "Insufficient balance"
  else Except.error "Only government can perform this action"

/-- Source `pause()` — `onlyGovernment`; OpenZeppelin `_pause` itself requires the
contract not to be paused already. -/
def pauseC (sender : Nat) (s : State) : Except String State :=
  if hasRole s sender Role.Government then
    if s.paused then Except.error "Pausable: paused"
    else Except.ok { s with paused := true }
  else Except.error "Only government can perform this action"

/-- Source `unpause()` — `onlyGovernment`; `_unpause` requires the paused state. -/
def unpauseC (sender : Nat) (s : State) : Except String State :=
  if hasRole s sender Role.Government then
    if s.paused then Except.ok { s with paused := false }
    else Except.error "Pausable: not paused"
  else Except.error "Only government can perform this action"

/-- OpenZeppelin public `grantRole` (admin of every role is
`DEFAULT_ADMIN_ROLE`). -/
def grantRole (sender : Nat) (r : Role) (account : Nat) (s : State) :
    Except String State :=
  if hasRole s sender Role.DefaultAdmin then
    Except.ok { s with roles := grantR s.roles account r }
  else Except.error "AccessControl: account is missing role"

/-- OpenZeppelin public `revokeRole`. -/
def revokeRole (sender : Nat) (r : Role) (account : Nat) (s : State) :
    Except String State :=
  if hasRole s sender Role.DefaultAdmin then
    Except.ok { s with roles := revokeR s.roles account r }
  else Except.error "AccessControl: account is missing role"

/-- The external entry points of the contract, that is, the alphabet of
transactions a sequence of operations is built from. -/
inductive Op where
  | addFunds (sender value : Nat)
  | receiveEther (sender value : Nat)
  | registerProject (sender producer : Nat) (name description : String)
      (totalSubsidyAmount now : Nat)
  | addMilestone (sender projectId : Nat) (description : String)
      (subsidyAmount targetValue : Nat) (verificationSource : String)
      (deadline now : Nat)
  | verifyMilestone (sender milestoneId actualValue : Nat) (success : Bool) (now : Nat)
  | updateProjectStatus (sender projectId : Nat) (newStatus : ProjectStatus)
  | disputeMilestone (sender milestoneId : Nat)
  | resolveDispute (sender milestoneId : Nat) (approve : Bool)
  | emergencyWithdraw (sender amount recipient : Nat)
  | pauseC (sender : Nat)
  | unpauseC (sender : Nat)
  | grantRole (sender : Nat) (r : Role) (account : Nat)
  | revokeRole (sender : Nat) (r : Role) (account : Nat)

/-- Dispatch an operation to its entry point. -/
def exec (op : Op) (s : State) : Except String State :=
  match op with
  | Op.addFunds sender value => addFunds sender value s
  | Op.receiveEther sender value => receiveEther sender value s
  | Op.registerProject sender producer name description amount now =>
      registerProject sender producer name description amount now s
  | Op.addMilestone sender projectId description amt tv src dl now =>
      addMilestone sender projectId description amt tv src dl now s
  | Op.verifyMilestone sender milestoneId actualValue success now =>
      verifyMilestone sender milestoneId actualValue success now s
  | Op.updateProjectStatus sender projectId newStatus =>
      updateProjectStatus sender projectId newStatus s
  | Op.disputeMilestone sender milestoneId => disputeMilestone sender milestoneId s
  | Op.resolveDispute sender milestoneId approve =>
      resolveDispute sender milestoneId approve s
  | Op.emergencyWithdraw sender amount recipient =>
      emergencyWithdraw sender amount recipient s
  | Op.pauseC sender => pauseC sender s
  | Op.unpauseC sender => unpauseC sender s
  | Op.grantRole sender r account => grantRole sender r account s
  | Op.revokeRole sender r account => revokeRole sender r account s

/-- A transaction either commits its new state or reverts, leaving the
state unchanged. -/
def apply (op : Op) (s : State) : State :=
  match exec op s with
  | Except.ok t => t
  | Except.error _ => s

/-- Run a sequence of transactions from a given state. -/
def runFrom (s : State) (ops : List Op) : State :=
  ops.foldl (fun t op => apply op t) s

/-- The states reachable from a fresh deployment by `deployer`. -/
def Reachable (deployer : Nat) (s : State) : Prop :=
  ∃ ops : List Op, s = runFrom (init deployer) ops

/-- The contribution of milestone id `i` to the paid sum: its
`subsidyAmount` when `paid`, else 0 (unwritten ids read as the zero
struct, whose `paid` is false). -/
def paidContrib (ms : Nat → Option Milestone) (i : Nat) : Nat :=
  if ((ms i).getD zeroMilestone).paid then ((ms i).getD zeroMilestone).subsidyAmount else 0

/-- Sum of `paidContrib` over ids `0, …, n-1`. -/
def paidSumAux (ms : Nat → Option Milestone) (n : Nat) : Nat :=
  (Finset.range n).sum (paidContrib ms)

/-- The sum of `subsidyAmount` over all paid milestones (all milestones
live at ids `< nextMilestoneId`). -/
def paidSum (s : State) : Nat :=
  paidSumAux s.milestones s.nextMilestoneId

end GHS

namespace DO

/-- The roles of the `DataOracle` contract. -/
inductive Role where
  | DefaultAdmin
  | OracleOperator
  | DataProvider
deriving DecidableEq

/-- Source `enum DataSourceType { IoTDevice, GovernmentDB, ThirdPartyVerifier, Manual }` -/
inductive DataSourceType where
  | IoTDevice
  | GovernmentDB
  | ThirdPartyVerifier
  | Manual
deriving DecidableEq

/-- The `bytes32` data id computed by
`keccak256(abi.encodePacked(_source, _value, block.timestamp, msg.sender))`.
With one dynamic argument followed by fixed-width ones, `abi.encodePacked`
is injective on the tuple, and keccak is treated as collision-free, so the
hash is modelled by the tuple itself: two calls collide exactly when their
tuples coincide. -/
structure DataId where
  source : String
  value : Nat
  timestamp : Nat
  submitter : Nat
deriving DecidableEq

/-- The `DataPoint` struct. -/
structure DataPoint where
  value : Nat
  timestamp : Nat
  source : String
  sourceType : DataSourceType
  verifier : Nat
  isVerified : Bool
  metadata : String
deriving DecidableEq

/-- The events declared by `DataOracle`. -/
inductive Event where
  | DataSubmitted (dataId : DataId) (source : String) (value provider : Nat)
  | DataVerified (dataId : DataId) (verified : Bool) (verifier : Nat)
  | TrustedSourceAdded (source : String) (sourceType : DataSourceType)
  | TrustedSourceRemoved (source : String)
  | VerificationThresholdUpdated (sourceType : DataSourceType) (newThreshold : Nat)
deriving DecidableEq

/-- Source `DataOracle` storage and event log. -/
structure State where
  roles : Nat → Role → Bool
  trustedSources : String → Bool
  sourceTypes : String → DataSourceType
  dataPoints : DataId → Option DataPoint
  sourceDataHistory : String → List DataId
  verificationThresholds : DataSourceType → Nat
  sourceReliabilityScore : String → Nat
  paused : Bool
  events : List Event

/-- Zero-initialised `DataPoint` (EVM mapping default; enum default is the
first member, `IoTDevice`). -/
def zeroDataPoint : DataPoint :=
  { value := 0, timestamp := 0, source := "",
    sourceType := DataSourceType.IoTDevice, verifier := 0,
    isVerified := false, metadata := "" }

/-- Source `dataPoints[id]` — mapping read with zero default. -/
def getDataPoint (s : State) (i : DataId) : DataPoint :=
  (s.dataPoints i).getD zeroDataPoint

/-- Source `hasRole` of the oracle's `AccessControl`. -/
def hasRole (s : State) (a : Nat) (r : Role) : Bool :=
  s.roles a r

/-- Point update of the oracle's role assignment. -/
def grantR (f : Nat → Role → Bool) (a : Nat) (r : Role) : Nat → Role → Bool :=
  fun x y => if x = a ∧ y = r then true else f x y

/-- Point update of the `dataPoints` mapping. -/
def dupd (f : DataId → Option DataPoint) (i : DataId) (d : DataPoint) :
    DataId → Option DataPoint :=
  fun j => if j = i then some d else f j

/-- The constructor: deployer gets admin and operator roles; the default
verification thresholds are 85/95/90/75. -/
def init (deployer : Nat) : State :=
  { roles := fun a r =>
      if a = deployer ∧ (r = Role.DefaultAdmin ∨ r = Role.OracleOperator) then true
      else false,
    trustedSources := fun _ => false,
    sourceTypes := fun _ => DataSourceType.IoTDevice,
    dataPoints := fun _ => none,
    sourceDataHistory := fun _ => [],
    verificationThresholds := fun t =>
      match t with
      | DataSourceType.IoTDevice => 85
      | DataSourceType.GovernmentDB => 95
      | DataSourceType.ThirdPartyVerifier => 90
      | DataSourceType.Manual => 75,
    sourceReliabilityScore := fun _ => 0,
    paused := false,
    events := [] }

/-- Source `addTrustedSource` — `onlyRole(ORACLE_OPERATOR_ROLE)`. -/
def addTrustedSource (sender : Nat) (source : String) (sourceType : DataSourceType)
    (s : State) : Except String State :=
  if hasRole s sender Role.OracleOperator then
    Except.ok { s with
      trustedSources := fun k => if k = source then true else s.trustedSources k,
      sourceTypes := fun k => if k = source then sourceType else s.sourceTypes k,
      sourceReliabilityScore := fun k =>
        if k = source then s.verificationThresholds sourceType
        else s.sourceReliabilityScore k,
      events := s.events ++ [Event.TrustedSourceAdded source sourceType] }
  else Except.error "AccessControl: account is missing role"

/-- Source `removeTrustedSource` — `onlyRole(ORACLE_OPERATOR_ROLE)`; `delete`
resets to the zero value. -/
def removeTrustedSource (sender : Nat) (source : String) (s : State) :
    Except String State :=
  if hasRole s sender Role.OracleOperator then
    Except.ok { s with
      trustedSources := fun k => if k = source then false else s.trustedSources k,
      sourceTypes := fun k =>
        if k = source then DataSourceType.IoTDevice else s.sourceTypes k,
      sourceReliabilityScore := fun k =>
        if k = source then 0 else s.sourceReliabilityScore k,
      events := s.events ++ [Event.TrustedSourceRemoved source] }
  else Except.error "AccessControl: account is missing role"

/-- The content-derived id of `submitData`. -/
def mkDataId (source : String) (value now sender : Nat) : DataId :=
  { source := source, value := value, timestamp := now, submitter := sender }

/-- Source `submitData` — `onlyRole(DATA_PROVIDER_ROLE) onlyTrustedSource(_source)
whenNotPaused`; modifiers are checked in declaration order. -/
def submitData (sender : Nat) (source : String) (value : Nat) (metadata : String)
    (now : Nat) (s : State) : Except String State :=
  if hasRole s sender Role.DataProvider then
    if s.trustedSources source then
      if s.paused then Except.error "Pausable: paused"
      else
        let dataId := mkDataId source value now sender
        Except.ok { s with
          dataPoints := dupd s.dataPoints dataId
            { value := value, timestamp := now, source := source,
              sourceType := s.sourceTypes source, verifier := sender,
              isVerified := false, metadata := metadata },
          sourceDataHistory := fun k =>
            if k = source then s.sourceDataHistory k ++ [dataId]
            else s.sourceDataHistory k,
          events := s.events ++ [Event.DataSubmitted dataId source value sender] }
    else Except.error "Source not trusted"
  else Except.error "AccessControl: account is missing role"

/-- Source `verifyData` — `onlyRole(ORACLE_OPERATOR_ROLE)`; existence is checked
via `timestamp > 0`; re-invocation overwrites the verdict. -/
def verifyData (sender : Nat) (dataId : DataId) (verified : Bool) (s : State) :
    Except String State :=
  if hasRole s sender Role.OracleOperator then
    if (getDataPoint s dataId).timestamp > 0 then
      let dp := getDataPoint s dataId
      Except.ok { s with
        dataPoints := dupd s.dataPoints dataId
          { dp with isVerified := verified, verifier := sender },
        events := s.events ++ [Event.DataVerified dataId verified sender] }
    else Except.error "Data point does not exist"
  else Except.error "AccessControl: account is missing role"

/-- The selection predicate of `getVerifiedData`. -/
def inRangeVerified (s : State) (fromTimestamp toTimestamp : Nat) (i : DataId) : Bool :=
  (getDataPoint s i).isVerified &&
    decide (fromTimestamp ≤ (getDataPoint s i).timestamp) &&
    decide ((getDataPoint s i).timestamp ≤ toTimestamp)

/-- Source `getVerifiedData` — `external view`, a pure function of the state.  The
source's two-pass count-then-fill loop over `sourceDataHistory[_source]`
computes the in-order filter of the history and its mapped values. -/
def getVerifiedData (s : State) (source : String)
    (fromTimestamp toTimestamp : Nat) : List DataId × List Nat :=
  let sourceData := s.sourceDataHistory source
  let validDataIds := sourceData.filter (inRangeVerified s fromTimestamp toTimestamp)
  (validDataIds, validDataIds.map fun i => (getDataPoint s i).value)

/-- Source `getAggregateValue` — `external view`; sums the values returned by
`getVerifiedData` with a running-total loop and returns the count. -/
def getAggregateValue (s : State) (source : String)
    (fromTimestamp toTimestamp : Nat) : Nat × Nat :=
  let vd := getVerifiedData s source fromTimestamp toTimestamp
  (vd.2.foldl (fun a b => a + b) 0, vd.1.length)

/-- Source `updateVerificationThreshold` — operator-only, bounded by 100. -/
def updateVerificationThreshold (sender : Nat) (sourceType : DataSourceType)
    (newThreshold : Nat) (s : State) : Except String State :=
  if hasRole s sender Role.OracleOperator then
    if newThreshold ≤ 100 then
      Except.ok { s with
        verificationThresholds := fun t =>
          if t = sourceType then newThreshold else s.verificationThresholds t,
        events := s.events ++
          [Event.VerificationThresholdUpdated sourceType newThreshold] }
    else Except.error "Threshold cannot exceed 100"
  else Except.error "AccessControl: account is missing role"

/-- Source `updateSourceReliability` — operator-only, trusted source, bounded. -/
def updateSourceReliability (sender : Nat) (source : String) (newScore : Nat)
    (s : State) : Except String State :=
  if hasRole s sender Role.OracleOperator then
    if s.trustedSources source then
      if newScore ≤ 100 then
        Except.ok { s with
          sourceReliabilityScore := fun k =>
            if k = source then newScore else s.sourceReliabilityScore k }
      else Except.error "Score cannot exceed 100"
    else Except.error "Source not trusted"
  else Except.error "AccessControl: account is missing role"

/-- Source `pause()` — `onlyRole(ORACLE_OPERATOR_ROLE)`. -/
def pauseC (sender : Nat) (s : State) : Except String State :=
  if hasRole s sender Role.OracleOperator then
    if s.paused then Except.error "Pausable: paused"
    else Except.ok { s with paused := true }
  else Except.error "AccessControl: account is missing role"

/-- Source `unpause()` — `onlyRole(ORACLE_OPERATOR_ROLE)`. -/
def unpauseC (sender : Nat) (s : State) : Except String State :=
  if hasRole s sender Role.OracleOperator then
    if s.paused then Except.ok { s with paused := false }
    else Except.error "Pausable: not paused"
  else Except.error "AccessControl: account is missing role"

/-- OpenZeppelin public `grantRole` on the oracle contract. -/
def grantRole (sender : Nat) (r : Role) (account : Nat) (s : State) :
    Except String State :=
  if hasRole s sender Role.DefaultAdmin then
    Except.ok { s with roles := grantR s.roles account r }
  else Except.error "AccessControl: account is missing role"

/-- Commit an attempted call, keeping the old state on revert: used to
chain concrete scenario traces. -/
def commit (r : Except String State) (s : State) : State :=
  match r with
  | Except.ok t => t
  | Except.error _ => s

end DO

namespace GHS

/-- Scenario trace: deployer 1 funds the pool with 10, registers a
project for producer 2 with budget 5, adds a milestone worth 2 with
target 1000 and deadline 100, grants the oracle role to 3 and the auditor
role to 4, and milestone 1 is verified with actual value 1500 — the
milestone is paid. -/
def opsPaid : List Op :=
  [Op.addFunds 1 10,
   Op.registerProject 1 2 "P" "D" 5 0,
   Op.addMilestone 1 1 "M" 2 1000 "src" 100 0,
   Op.grantRole 1 Role.Oracle 3,
   Op.grantRole 1 Role.Auditor 4,
   Op.verifyMilestone 3 1 1500 true 10]

/-- The state after `opsPaid`: milestone 1 is `Verified` and `paid`. -/
def sPaid : State :=
  runFrom (init 1) opsPaid

/-- Source `sPaid` after the producer disputes the already-paid milestone 1. -/
def sDisputedPaid : State :=
  runFrom sPaid [Op.disputeMilestone 2 1]

/-- Source `sDisputedPaid` after the auditor rejects the dispute: milestone 1
ends `Failed` while `paid` stays true (no clawback). -/
def sClawback : State :=
  runFrom sDisputedPaid [Op.resolveDispute 4 1 false]

/-- Source `sDisputedPaid` after the auditor approves the dispute on the
already-paid milestone 1: the status returns to `Verified` and no second
payment happens. -/
def sResolvedPaid : State :=
  apply (Op.resolveDispute 4 1 true) sDisputedPaid

/-- Scenario trace: pool funded with 10 and a milestone worth 6 added,
but 8 of the contract's ether is removed by `emergencyWithdraw`, leaving
a balance of 2 — less than the milestone's subsidy. -/
def sLowBalance : State :=
  runFrom (init 1)
    [Op.addFunds 1 10,
     Op.registerProject 1 2 "P" "D" 10 0,
     Op.addMilestone 1 1 "M" 6 1000 "src" 100 0,
     Op.grantRole 1 Role.Oracle 3,
     Op.emergencyWithdraw 1 8 9]

/-- Scenario trace: a project with budget 5 receives two milestones worth
5 each (both pass the admission-time check while nothing is disbursed
yet) and both are then verified and paid. -/
def sOverBudget : State :=
  runFrom (init 1)
    [Op.addFunds 1 10,
     Op.registerProject 1 2 "P" "D" 5 0,
     Op.addMilestone 1 1 "A" 5 100 "s" 100 0,
     Op.addMilestone 1 1 "B" 5 100 "s" 100 0,
     Op.grantRole 1 Role.Oracle 3,
     Op.verifyMilestone 3 1 200 true 10,
     Op.verifyMilestone 3 2 200 true 10]

/-- A hand-built state exercising `_processMilestonePayment` directly:
milestone 1 is `Verified` and unpaid with `subsidyAmount` 5, while its
project has already disbursed its whole budget of 5. -/
def sBudgetSpent : State :=
  { roles := fun a r =>
      if a = 1 ∧ (r = Role.DefaultAdmin ∨ r = Role.Government) then true else false,
    projects := pupd (fun _ => none) 1
      { id := 1, producer := 2, name := "P", description := "D",
        totalSubsidyAmount := 5, disbursedAmount := 5, createdAt := 0,
        status := ProjectStatus.Active, milestoneIds := [1],
        milestoneFlag := fun j => j = 1 },
    milestones := mupd (fun _ => none) 1
      { id := 1, projectId := 1, description := "A", subsidyAmount := 5,
        targetValue := 100, actualValue := 200, verificationSource := "s",
        deadline := 100, status := MilestoneStatus.Verified,
        verifiedAt := 10, verifiedBy := 3, paid := false },
    producerProjects := fun a => if a = 2 then [1] else [],
    nextProjectId := 2,
    nextMilestoneId := 2,
    totalSubsidyPool := 10,
    totalDisbursed := 5,
    balance := 5,
    paused := false,
    events := [] }

/-- Scenario trace: the pool is funded and the government pauses the
`GreenHydrogenSubsidy` contract. -/
def sPausedReg : State :=
  runFrom (init 1) [Op.addFunds 1 10, Op.pauseC 1]

/-- The inductive invariant of the subsidy ledger:
`totalDisbursed` equals the sum over paid milestones, the ether balance
plus `totalDisbursed` never exceeds `totalSubsidyPool`, ids at or above
`nextMilestoneId` are unwritten, and a paid milestone is never
`Pending`. -/
structure Inv (s : State) : Prop where
  disb_eq : s.totalDisbursed = paidSum s
  bal_le : s.balance + s.totalDisbursed ≤ s.totalSubsidyPool
  fresh : ∀ i, s.nextMilestoneId ≤ i → s.milestones i = none
  paid_st : ∀ i, (getMilestone s i).paid = true →
    (getMilestone s i).status ≠ MilestoneStatus.Pending

/-- What one committed transaction preserves: the invariant, monotonicity
of `totalDisbursed`, and monotonicity of every milestone's `paid` flag. -/
def StepOk (s s' : State) : Prop :=
  Inv s' ∧ s.totalDisbursed ≤ s'.totalDisbursed ∧
    ∀ mid, (getMilestone s mid).paid = true → (getMilestone s' mid).paid = true

end GHS

namespace DO

/-- Oracle scenario: the operator trusts source "s" and grants the data
provider role to 2. -/
def sTrusted : State :=
  commit (grantRole 1 Role.DataProvider 2
    (commit (addTrustedSource 1 "s" DataSourceType.IoTDevice (init 1)) (init 1)))
    (commit (addTrustedSource 1 "s" DataSourceType.IoTDevice (init 1)) (init 1))

/-- Source `sTrusted` after the operator pauses the oracle. -/
def sPausedOracle : State :=
  commit (pauseC 1 sTrusted) sTrusted

/-- Source `sTrusted` after provider 2 submits value 5 with metadata "m1" at
timestamp 10. -/
def sSubmitted1 : State :=
  commit (submitData 2 "s" 5 "m1" 10 sTrusted) sTrusted

/-- Source `sSubmitted1` after provider 2 submits value 5 again at the same
timestamp 10, now with metadata "m2": the computed id collides with the
first submission's. -/
def sSubmitted2 : State :=
  commit (submitData 2 "s" 5 "m2" 10 sSubmitted1) sSubmitted1

end DO

namespace GHS

theorem mupd_app (f : Nat → Option Milestone) (i : Nat) (m : Milestone) (j : Nat) :
    mupd f i m j = if j = i then some m else f j := rfl

theorem getMilestone_eq (s : State) (i : Nat) :
    getMilestone s i = (s.milestones i).getD zeroMilestone := rfl

theorem getProject_eq (s : State) (i : Nat) :
    getProject s i = (s.projects i).getD zeroProject := rfl

theorem paidContrib_mupd_self (ms : Nat → Option Milestone) (i : Nat) (m : Milestone) :
    paidContrib (mupd ms i m) i = if m.paid then m.subsidyAmount else 0 := by
  simp [paidContrib, mupd]

theorem paidContrib_mupd_ne (ms : Nat → Option Milestone) (i : Nat) (m : Milestone)
    (j : Nat) (h : j ≠ i) : paidContrib (mupd ms i m) j = paidContrib ms j := by
  simp [paidContrib, mupd, h]

theorem paidSumAux_congr {ms ms' : Nat → Option Milestone} {n : Nat}
    (h : ∀ i, i < n → paidContrib ms' i = paidContrib ms i) :
    paidSumAux ms' n = paidSumAux ms n :=
  Finset.sum_congr rfl fun i hi => h i (Finset.mem_range.mp hi)

theorem paidSumAux_succ (ms : Nat → Option Milestone) (n : Nat) :
    paidSumAux ms (n + 1) = paidSumAux ms n + paidContrib ms n :=
  Finset.sum_range_succ _ _

theorem paidSumAux_mupd_keep {ms : Nat → Option Milestone} {n i : Nat} {m : Milestone}
    (h : (if m.paid then m.subsidyAmount else 0) = paidContrib ms i) :
    paidSumAux (mupd ms i m) n = paidSumAux ms n := by
  refine paidSumAux_congr fun j _ => ?_
  rcases eq_or_ne j i with rfl | hne
  · rw [paidContrib_mupd_self, h]
  · exact paidContrib_mupd_ne ms i m j hne

theorem paidSumAux_mupd_pay {ms : Nat → Option Milestone} {n i : Nat} {m : Milestone}
    (hi : i < n) (h0 : paidContrib ms i = 0) :
    paidSumAux (mupd ms i m) n
      = paidSumAux ms n + (if m.paid then m.subsidyAmount else 0) := by
  have hmem : i ∈ Finset.range n := Finset.mem_range.mpr hi
  have hdiff : ∀ j ∈ Finset.range n \ {i},
      paidContrib (mupd ms i m) j = paidContrib ms j := by
    intro j hj
    have hne : j ≠ i := by
      intro hji
      exact (Finset.mem_sdiff.mp hj).2 (Finset.mem_singleton.mpr hji)
    exact paidContrib_mupd_ne ms i m j hne
  rw [paidSumAux, paidSumAux,
    Finset.sum_eq_sum_diff_singleton_add hmem (paidContrib (mupd ms i m)),
    Finset.sum_eq_sum_diff_singleton_add hmem (paidContrib ms),
    Finset.sum_congr rfl hdiff, paidContrib_mupd_self, h0]
  simp

end GHS

namespace GHS

theorem ckpc_milestones (pid : Nat) (s : State) :
    (checkProjectCompletion pid s).milestones = s.milestones := by
  unfold checkProjectCompletion
  dsimp only
  split <;> rfl

theorem ckpc_nextMilestoneId (pid : Nat) (s : State) :
    (checkProjectCompletion pid s).nextMilestoneId = s.nextMilestoneId := by
  unfold checkProjectCompletion
  dsimp only
  split <;> rfl

theorem ckpc_totalDisbursed (pid : Nat) (s : State) :
    (checkProjectCompletion pid s).totalDisbursed = s.totalDisbursed := by
  unfold checkProjectCompletion
  dsimp only
  split <;> rfl

theorem ckpc_balance (pid : Nat) (s : State) :
    (checkProjectCompletion pid s).balance = s.balance := by
  unfold checkProjectCompletion
  dsimp only
  split <;> rfl

theorem ckpc_totalSubsidyPool (pid : Nat) (s : State) :
    (checkProjectCompletion pid s).totalSubsidyPool = s.totalSubsidyPool := by
  unfold checkProjectCompletion
  dsimp only
  split <;> rfl

theorem ckpc_disbursedAmount (pid : Nat) (s : State) :
    (getProject (checkProjectCompletion pid s) pid).disbursedAmount
      = (getProject s pid).disbursedAmount := by
  unfold checkProjectCompletion
  dsimp only
  split
  · simp [getProject, pupd]
  · rfl

theorem exceptMap_ok {r : Except String State} {f : State → State} {s' : State}
    (h : Except.map f r = Except.ok s') : ∃ t, r = Except.ok t ∧ s' = f t := by
  cases r with
  | ok t =>
    refine ⟨t, rfl, ?_⟩
    simpa [Except.map] using h.symm
  | error e => simp [Except.map] at h

theorem getMilestone_congr {s s' : State} (h : s'.milestones = s.milestones) (i : Nat) :
    getMilestone s' i = getMilestone s i := by
  rw [getMilestone_eq, getMilestone_eq, h]

theorem Inv.general {s s' : State} (h : Inv s) (hm : s'.milestones = s.milestones)
    (hn : s'.nextMilestoneId = s.nextMilestoneId)
    (hd : s'.totalDisbursed = s.totalDisbursed)
    (hb : s'.balance + s'.totalDisbursed ≤ s'.totalSubsidyPool) : Inv s' := by
  refine ⟨?_, hb, ?_, ?_⟩
  · rw [hd, paidSum, hm, hn]
    exact h.disb_eq
  · intro i hi
    rw [hm]
    exact h.fresh i (by omega)
  · intro i
    rw [getMilestone_congr hm]
    exact h.paid_st i

end GHS

namespace GHS

theorem payment_ok {mid : Nat} {s s' : State}
    (h : processMilestonePayment mid s = Except.ok s') :
    (getMilestone s mid).status = MilestoneStatus.Verified ∧
    (getMilestone s mid).paid = false ∧
    (getProject s (getMilestone s mid).projectId).status = ProjectStatus.Active ∧
    (getMilestone s mid).subsidyAmount ≤ s.balance ∧
    s' = checkProjectCompletion (getMilestone s mid).projectId
      { s with
        milestones := mupd s.milestones mid { getMilestone s mid with paid := true },
        projects := pupd s.projects (getMilestone s mid).projectId
          { getProject s (getMilestone s mid).projectId with
            disbursedAmount := (getProject s (getMilestone s mid).projectId).disbursedAmount
              + (getMilestone s mid).subsidyAmount },
        totalDisbursed := s.totalDisbursed + (getMilestone s mid).subsidyAmount,
        balance := s.balance - (getMilestone s mid).subsidyAmount,
        events := s.events ++
          [Event.SubsidyDisbursed (getMilestone s mid).projectId mid
            (getProject s (getMilestone s mid).projectId).producer
            (getMilestone s mid).subsidyAmount] } := by
  unfold processMilestonePayment at h
  dsimp only at h
  split at h
  case isFalse => cases h
  case isTrue hstat =>
    split at h
    case isFalse => cases h
    case isTrue hpaid =>
      split at h
      case isFalse => cases h
      case isTrue hact =>
        split at h
        case isFalse => cases h
        case isTrue hbal =>
          injection h with h
          exact ⟨hstat, by simpa using hpaid, hact, hbal, h.symm⟩

theorem payment_delta {mid : Nat} {s s' : State}
    (h : processMilestonePayment mid s = Except.ok s') :
    s'.totalSubsidyPool = s.totalSubsidyPool ∧
    s'.totalDisbursed = s.totalDisbursed + (getMilestone s mid).subsidyAmount ∧
    s'.balance + (getMilestone s mid).subsidyAmount = s.balance := by
  obtain ⟨-, -, -, hbal, rfl⟩ := payment_ok h
  refine ⟨by rw [ckpc_totalSubsidyPool], by rw [ckpc_totalDisbursed], ?_⟩
  rw [ckpc_balance]
  dsimp only
  omega

theorem payment_milestones {mid : Nat} {s s' : State}
    (h : processMilestonePayment mid s = Except.ok s') :
    s'.milestones = mupd s.milestones mid { getMilestone s mid with paid := true } := by
  obtain ⟨-, -, -, -, rfl⟩ := payment_ok h
  rw [ckpc_milestones]

theorem payment_next {mid : Nat} {s s' : State}
    (h : processMilestonePayment mid s = Except.ok s') :
    s'.nextMilestoneId = s.nextMilestoneId := by
  obtain ⟨-, -, -, -, rfl⟩ := payment_ok h
  rw [ckpc_nextMilestoneId]

theorem inv_payment {mid : Nat} {s s' : State} (hInv : Inv s)
    (h : processMilestonePayment mid s = Except.ok s') : Inv s' := by
  obtain ⟨hstat, hpaid, hact, hbal, rfl⟩ := payment_ok h
  have hmidlt : mid < s.nextMilestoneId := by
    by_contra hge
    have hnone := hInv.fresh mid (by omega)
    rw [getMilestone_eq, hnone] at hstat
    cases hstat
  have h0 : paidContrib s.milestones mid = 0 := by
    show (if ((s.milestones mid).getD zeroMilestone).paid
      then ((s.milestones mid).getD zeroMilestone).subsidyAmount else 0) = 0
    rw [← getMilestone_eq, hpaid]
    rfl
  have hInv1 : Inv { s with
      milestones := mupd s.milestones mid { getMilestone s mid with paid := true },
      projects := pupd s.projects (getMilestone s mid).projectId
        { getProject s (getMilestone s mid).projectId with
          disbursedAmount := (getProject s (getMilestone s mid).projectId).disbursedAmount
            + (getMilestone s mid).subsidyAmount },
      totalDisbursed := s.totalDisbursed + (getMilestone s mid).subsidyAmount,
      balance := s.balance - (getMilestone s mid).subsidyAmount,
      events := s.events ++
        [Event.SubsidyDisbursed (getMilestone s mid).projectId mid
          (getProject s (getMilestone s mid).projectId).producer
          (getMilestone s mid).subsidyAmount] } := by
    refine ⟨?_, ?_, ?_, ?_⟩
    · show s.totalDisbursed + (getMilestone s mid).subsidyAmount
        = paidSumAux (mupd s.milestones mid { getMilestone s mid with paid := true })
            s.nextMilestoneId
      rw [paidSumAux_mupd_pay hmidlt h0]
      have : s.totalDisbursed = paidSumAux s.milestones s.nextMilestoneId := hInv.disb_eq
      rw [← this]
      simp
    · have := hInv.bal_le
      dsimp only
      omega
    · intro i hi
      dsimp only at hi
      show mupd s.milestones mid { getMilestone s mid with paid := true } i = none
      rw [mupd_app]
      have hne : i ≠ mid := by omega
      rw [if_neg hne]
      exact hInv.fresh i hi
    · intro i
      show ((mupd s.milestones mid { getMilestone s mid with paid := true } i).getD
          zeroMilestone).paid = true →
        ((mupd s.milestones mid { getMilestone s mid with paid := true } i).getD
          zeroMilestone).status ≠ MilestoneStatus.Pending
      rw [mupd_app]
      rcases eq_or_ne i mid with rfl | hne
      · rw [if_pos rfl]
        intro _
        show (getMilestone s i).status ≠ MilestoneStatus.Pending
        rw [hstat]
        intro hcon
        cases hcon
      · rw [if_neg hne]
        exact hInv.paid_st i
  refine Inv.general hInv1 (ckpc_milestones _ _) (ckpc_nextMilestoneId _ _)
    (ckpc_totalDisbursed _ _) ?_
  rw [ckpc_balance, ckpc_totalDisbursed, ckpc_totalSubsidyPool]
  exact hInv1.bal_le

end GHS

namespace GHS

theorem stepOk_nomilestones {s s' : State} (hInv : Inv s)
    (hm : s'.milestones = s.milestones) (hn : s'.nextMilestoneId = s.nextMilestoneId)
    (hd : s'.totalDisbursed = s.totalDisbursed)
    (hb : s'.balance + s'.totalDisbursed ≤ s'.totalSubsidyPool) : StepOk s s' := by
  refine ⟨Inv.general hInv hm hn hd hb, by omega, fun mid hp => ?_⟩
  rw [getMilestone_congr hm]
  exact hp

theorem stepOk_statusOnly {s s' : State} (hInv : Inv s) {i : Nat} {m' : Milestone}
    (hi : i < s.nextMilestoneId)
    (hm : s'.milestones = mupd s.milestones i m')
    (hn : s'.nextMilestoneId = s.nextMilestoneId)
    (hd : s'.totalDisbursed = s.totalDisbursed)
    (hbal : s'.balance = s.balance)
    (hpool : s'.totalSubsidyPool = s.totalSubsidyPool)
    (hpay : (if m'.paid then m'.subsidyAmount else 0) = paidContrib s.milestones i)
    (hpaid_eq : m'.paid = (getMilestone s i).paid)
    (hst : m'.paid = true → m'.status ≠ MilestoneStatus.Pending) : StepOk s s' := by
  have hget : ∀ j, getMilestone s' j = if j = i then m' else getMilestone s j := by
    intro j
    rw [getMilestone_eq, hm, mupd_app]
    split <;> rfl
  refine ⟨⟨?_, ?_, ?_, ?_⟩, by omega, fun mid hp => ?_⟩
  · rw [hd, hInv.disb_eq, paidSum, paidSum, hm, hn]
    exact (paidSumAux_mupd_keep hpay).symm
  · rw [hbal, hd, hpool]
    exact hInv.bal_le
  · intro j hj
    rw [hm, mupd_app, if_neg (by omega)]
    exact hInv.fresh j (by omega)
  · intro j
    rw [hget j]
    split
    · exact hst
    · exact hInv.paid_st j
  · rw [hget mid]
    split
    case isTrue hji =>
      subst hji
      rw [hpaid_eq]
      exact hp
    case isFalse => exact hp

end GHS

namespace GHS

theorem stepOk_trans {s t u : State} (h1 : StepOk s t) (h2 : StepOk t u) : StepOk s u :=
  ⟨h2.1, Nat.le_trans h1.2.1 h2.2.1, fun mid hp => h2.2.2 mid (h1.2.2 mid hp)⟩

theorem stepOk_payment {mid : Nat} {s s' : State} (hInv : Inv s)
    (h : processMilestonePayment mid s = Except.ok s') : StepOk s s' := by
  refine ⟨inv_payment hInv h, ?_, ?_⟩
  · have := (payment_delta h).2.1
    omega
  · intro j hp
    rw [getMilestone_eq, payment_milestones h, mupd_app]
    split
    · rfl
    · exact hp

theorem stepOk_eventsOnly {s s' : State} (hInv : Inv s)
    (hm : s'.milestones = s.milestones) (hn : s'.nextMilestoneId = s.nextMilestoneId)
    (hd : s'.totalDisbursed = s.totalDisbursed) (hbal : s'.balance = s.balance)
    (hpool : s'.totalSubsidyPool = s.totalSubsidyPool) : StepOk s s' := by
  refine stepOk_nomilestones hInv hm hn hd ?_
  rw [hbal, hd, hpool]
  exact hInv.bal_le

theorem step_addFunds {a v : Nat} {s s' : State} (hInv : Inv s)
    (h : addFunds a v s = Except.ok s') : StepOk s s' := by
  unfold addFunds at h
  split at h
  case isFalse => cases h
  case isTrue =>
    split at h
    case isFalse => cases h
    case isTrue =>
      injection h with h
      subst h
      refine stepOk_nomilestones hInv rfl rfl rfl ?_
      have := hInv.bal_le
      dsimp only
      omega

theorem step_receiveEther {a v : Nat} {s s' : State} (hInv : Inv s)
    (h : receiveEther a v s = Except.ok s') : StepOk s s' := by
  unfold receiveEther at h
  injection h with h
  subst h
  refine stepOk_nomilestones hInv rfl rfl rfl ?_
  have := hInv.bal_le
  dsimp only
  omega

theorem step_registerProject {a p : Nat} {nm ds : String} {amt now : Nat} {s s' : State}
    (hInv : Inv s) (h : registerProject a p nm ds amt now s = Except.ok s') :
    StepOk s s' := by
  unfold registerProject at h
  split at h
  case isFalse => cases h
  case isTrue =>
    split at h
    case isFalse => cases h
    case isTrue =>
      split at h
      case isFalse => cases h
      case isTrue =>
        split at h
        case isFalse => cases h
        case isTrue =>
          split at h
          case isTrue => cases h
          case isFalse =>
            split at h
            case isFalse => cases h
            case isTrue =>
              split at h
              case isFalse => cases h
              case isTrue =>
                injection h with h
                subst h
                exact stepOk_eventsOnly hInv rfl rfl rfl rfl rfl

theorem step_updateProjectStatus {a pid : Nat} {ns : ProjectStatus} {s s' : State}
    (hInv : Inv s) (h : updateProjectStatus a pid ns s = Except.ok s') : StepOk s s' := by
  unfold updateProjectStatus at h
  split at h
  case isFalse => cases h
  case isTrue =>
    split at h
    case isFalse => cases h
    case isTrue =>
      injection h with h
      subst h
      exact stepOk_eventsOnly hInv rfl rfl rfl rfl rfl

theorem step_emergencyWithdraw {a amt r : Nat} {s s' : State} (hInv : Inv s)
    (h : emergencyWithdraw a amt r s = Except.ok s') : StepOk s s' := by
  unfold emergencyWithdraw at h
  split at h
  case isFalse => cases h
  case isTrue =>
    split at h
    case isFalse => cases h
    case isTrue =>
      split at h
      case isFalse => cases h
      case isTrue =>
        injection h with h
        subst h
        refine stepOk_nomilestones hInv rfl rfl rfl ?_
        have := hInv.bal_le
        dsimp only
        omega

theorem step_pauseC {a : Nat} {s s' : State} (hInv : Inv s)
    (h : pauseC a s = Except.ok s') : StepOk s s' := by
  unfold pauseC at h
  split at h
  case isFalse => cases h
  case isTrue =>
    split at h
    case isTrue => cases h
    case isFalse =>
      injection h with h
      subst h
      exact stepOk_eventsOnly hInv rfl rfl rfl rfl rfl

theorem step_unpauseC {a : Nat} {s s' : State} (hInv : Inv s)
    (h : unpauseC a s = Except.ok s') : StepOk s s' := by
  unfold unpauseC at h
  split at h
  case isFalse => cases h
  case isTrue =>
    split at h
    case isFalse => cases h
    case isTrue =>
      injection h with h
      subst h
      exact stepOk_eventsOnly hInv rfl rfl rfl rfl rfl

theorem step_grantRole {a acct : Nat} {r : Role} {s s' : State} (hInv : Inv s)
    (h : grantRole a r acct s = Except.ok s') : StepOk s s' := by
  unfold grantRole at h
  split at h
  case isFalse => cases h
  case isTrue =>
    injection h with h
    subst h
    exact stepOk_eventsOnly hInv rfl rfl rfl rfl rfl

theorem step_revokeRole {a acct : Nat} {r : Role} {s s' : State} (hInv : Inv s)
    (h : revokeRole a r acct s = Except.ok s') : StepOk s s' := by
  unfold revokeRole at h
  split at h
  case isFalse => cases h
  case isTrue =>
    injection h with h
    subst h
    exact stepOk_eventsOnly hInv rfl rfl rfl rfl rfl

end GHS

namespace GHS

set_option maxHeartbeats 1600000 in
theorem step_addMilestone {a pid : Nat} {ds : String} {amt tv : Nat} {src : String}
    {dl now : Nat} {s s' : State} (hInv : Inv s)
    (h : addMilestone a pid ds amt tv src dl now s = Except.ok s') : StepOk s s' := by
  unfold addMilestone at h
  dsimp only at h
  split at h
  case isFalse => cases h
  case isTrue =>
    split at h
    case isFalse => cases h
    case isTrue =>
      split at h
      case isFalse => cases h
      case isTrue =>
        split at h
        case isFalse => cases h
        case isTrue =>
          split at h
          case isFalse => cases h
          case isTrue =>
            split at h
            case isFalse => cases h
            case isTrue =>
              split at h
              case isFalse => cases h
              case isTrue =>
                split at h
                case isFalse => cases h
                case isTrue =>
                  injection h with h
                  subst h
                  have hfresh : s.milestones s.nextMilestoneId = none :=
                    hInv.fresh s.nextMilestoneId (Nat.le_refl _)
                  have h0 : paidContrib s.milestones s.nextMilestoneId = 0 := by
                    unfold paidContrib
                    rw [hfresh]
                    rfl
                  have hget : ∀ j, ((mupd s.milestones s.nextMilestoneId
                      { id := s.nextMilestoneId, projectId := pid, description := ds,
                        subsidyAmount := amt, targetValue := tv, actualValue := 0,
                        verificationSource := src, deadline := dl,
                        status := MilestoneStatus.Pending, verifiedAt := 0,
                        verifiedBy := 0, paid := false } j).getD zeroMilestone)
                      = if j = s.nextMilestoneId then
                          { id := s.nextMilestoneId, projectId := pid, description := ds,
                            subsidyAmount := amt, targetValue := tv, actualValue := 0,
                            verificationSource := src, deadline := dl,
                            status := MilestoneStatus.Pending, verifiedAt := 0,
                            verifiedBy := 0, paid := false }
                        else getMilestone s j := by
                    intro j
                    rw [mupd_app]
                    split <;> rfl
                  refine ⟨⟨?_, ?_, ?_, ?_⟩, ?_, ?_⟩
                  · show s.totalDisbursed = paidSumAux _ (s.nextMilestoneId + 1)
                    rw [paidSumAux_succ, paidContrib_mupd_self]
                    rw [paidSumAux_mupd_keep (by rw [h0]; rfl)]
                    simpa using hInv.disb_eq
                  · exact hInv.bal_le
                  · intro i hi
                    dsimp only at hi
                    show mupd s.milestones s.nextMilestoneId _ i = none
                    rw [mupd_app, if_neg (by omega)]
                    exact hInv.fresh i (by omega)
                  · intro i
                    show ((mupd s.milestones s.nextMilestoneId _ i).getD zeroMilestone).paid
                        = true →
                      ((mupd s.milestones s.nextMilestoneId _ i).getD
                        zeroMilestone).status ≠ MilestoneStatus.Pending
                    rw [hget i]
                    split
                    · intro hcon
                      cases hcon
                    · exact hInv.paid_st i
                  · exact Nat.le_refl _
                  · intro mid hp
                    show ((mupd s.milestones s.nextMilestoneId _ mid).getD
                        zeroMilestone).paid = true
                    rw [hget mid]
                    split
                    case isTrue hji =>
                      subst hji
                      rw [getMilestone_eq, hfresh] at hp
                      cases hp
                    case isFalse => exact hp

theorem step_disputeMilestone {a mid : Nat} {s s' : State} (hInv : Inv s)
    (h : disputeMilestone a mid s = Except.ok s') : StepOk s s' := by
  unfold disputeMilestone at h
  dsimp only at h
  split at h
  case isFalse => cases h
  case isTrue hex =>
    split at h
    case isFalse => cases h
    case isTrue =>
      split at h
      case isFalse => cases h
      case isTrue =>
        injection h with h
        subst h
        refine stepOk_statusOnly hInv hex.2 rfl rfl rfl rfl rfl rfl rfl ?_
        intro _ hcon
        cases hcon

theorem step_verifyMilestone {a mid av : Nat} {sc : Bool} {now : Nat} {s s' : State}
    (hInv : Inv s) (h : verifyMilestone a mid av sc now s = Except.ok s') :
    StepOk s s' := by
  unfold verifyMilestone at h
  dsimp only at h
  split at h
  case isFalse => cases h
  case isTrue hex =>
    split at h
    case isFalse => cases h
    case isTrue =>
      split at h
      case isFalse => cases h
      case isTrue =>
        split at h
        case isFalse => cases h
        case isTrue =>
          split at h
          case isTrue =>
            obtain ⟨s2, hpay, rfl⟩ := exceptMap_ok h
            have hstep1 : StepOk s { s with
                milestones := mupd s.milestones mid
                  { getMilestone s mid with
                    actualValue := av, verifiedAt := now, verifiedBy := a,
                    status := MilestoneStatus.Verified } } := by
              refine stepOk_statusOnly hInv hex.2 rfl rfl rfl rfl rfl rfl rfl ?_
              intro _ hcon
              cases hcon
            have hstep2 := stepOk_payment hstep1.1 hpay
            refine stepOk_trans (stepOk_trans hstep1 hstep2) ?_
            exact stepOk_eventsOnly hstep2.1 rfl rfl rfl rfl rfl
          case isFalse =>
            injection h with h
            subst h
            refine stepOk_statusOnly hInv hex.2 rfl rfl rfl rfl rfl rfl rfl ?_
            intro _ hcon
            cases hcon

theorem step_resolveDispute {a mid : Nat} {ap : Bool} {s s' : State} (hInv : Inv s)
    (h : resolveDispute a mid ap s = Except.ok s') : StepOk s s' := by
  unfold resolveDispute at h
  dsimp only at h
  split at h
  case isFalse => cases h
  case isTrue =>
    split at h
    case isFalse => cases h
    case isTrue hex =>
      split at h
      case isFalse => cases h
      case isTrue =>
        split at h
        case isTrue =>
          split at h
          case isTrue =>
            injection h with h
            subst h
            refine stepOk_statusOnly hInv hex.2 rfl rfl rfl rfl rfl rfl rfl ?_
            intro _ hcon
            cases hcon
          case isFalse =>
            have hstep1 : StepOk s { s with
                milestones := mupd s.milestones mid
                  { getMilestone s mid with status := MilestoneStatus.Verified } } := by
              refine stepOk_statusOnly hInv hex.2 rfl rfl rfl rfl rfl rfl rfl ?_
              intro _ hcon
              cases hcon
            exact stepOk_trans hstep1 (stepOk_payment hstep1.1 h)
        case isFalse =>
          injection h with h
          subst h
          refine stepOk_statusOnly hInv hex.2 rfl rfl rfl rfl rfl rfl rfl ?_
          intro _ hcon
          cases hcon

end GHS

namespace GHS

theorem stepOk_exec {s s' : State} (hInv : Inv s) (op : Op)
    (h : exec op s = Except.ok s') : StepOk s s' := by
  cases op with
  | addFunds a v => exact step_addFunds hInv h
  | receiveEther a v => exact @step_receiveEther a v s s' hInv h
  | registerProject a p nm ds amt now => exact step_registerProject hInv h
  | addMilestone a pid ds amt tv src dl now => exact step_addMilestone hInv h
  | verifyMilestone a mid av sc now => exact step_verifyMilestone hInv h
  | updateProjectStatus a pid ns => exact step_updateProjectStatus hInv h
  | disputeMilestone a mid => exact step_disputeMilestone hInv h
  | resolveDispute a mid ap => exact step_resolveDispute hInv h
  | emergencyWithdraw a amt r => exact step_emergencyWithdraw hInv h
  | pauseC a => exact step_pauseC hInv h
  | unpauseC a => exact step_unpauseC hInv h
  | grantRole a r acct => exact step_grantRole hInv h
  | revokeRole a r acct => exact step_revokeRole hInv h

theorem stepOk_apply {s : State} (hInv : Inv s) (op : Op) : StepOk s (apply op s) := by
  unfold apply
  cases hexec : exec op s with
  | ok t => exact stepOk_exec hInv op hexec
  | error e => exact ⟨hInv, Nat.le_refl _, fun _ hp => hp⟩

theorem inv_init (d : Nat) : Inv (init d) := by
  refine ⟨?_, ?_, ?_, ?_⟩
  · show 0 = paidSumAux (fun _ => none) 1
    rw [paidSumAux, Finset.sum_range_one]
    rfl
  · exact Nat.le_refl 0
  · intro i _
    rfl
  · intro i hp
    cases hp

theorem inv_runFrom {s : State} (hInv : Inv s) (ops : List Op) :
    Inv (runFrom s ops) := by
  induction ops generalizing s with
  | nil => exact hInv
  | cons op ops ih => exact ih (stepOk_apply hInv op).1

theorem inv_reachable (d : Nat) (s : State) (h : Reachable d s) : Inv s := by
  obtain ⟨ops, rfl⟩ := h
  exact inv_runFrom (inv_init d) ops

end GHS

namespace GHS

/-- C1: in every reachable state of the subsidy ledger, `totalDisbursed`
equals the sum of `subsidyAmount` over all paid milestones and never
exceeds `totalSubsidyPool`; `totalDisbursed` never decreases under any
operation; and every successful milestone payment leaves the pool total
unchanged while raising `totalDisbursed` by exactly the milestone's
`subsidyAmount`, so the available balance
`totalSubsidyPool - totalDisbursed` drops by exactly that amount. -/
theorem C1_fund_pool_conservation (d : Nat) (s : State) (hs : Reachable d s) :
    (s.totalDisbursed = paidSum s ∧ s.totalDisbursed ≤ s.totalSubsidyPool) ∧
    (∀ op : Op, s.totalDisbursed ≤ (apply op s).totalDisbursed) ∧
    (∀ mid s', processMilestonePayment mid s = Except.ok s' →
      s'.totalSubsidyPool = s.totalSubsidyPool ∧
      s'.totalDisbursed = s.totalDisbursed + (getMilestone s mid).subsidyAmount ∧
      s.totalSubsidyPool - s.totalDisbursed
        = (s'.totalSubsidyPool - s'.totalDisbursed)
          + (getMilestone s mid).subsidyAmount) := by
  have hInv := inv_reachable d s hs
  refine ⟨⟨hInv.disb_eq, ?_⟩, ?_, ?_⟩
  · have := hInv.bal_le
    omega
  · intro op
    exact (stepOk_apply hInv op).2.1
  · intro mid s' hok
    obtain ⟨hpool, hdisb, hbal⟩ := payment_delta hok
    have hInv' := inv_payment hInv hok
    have hle' := hInv'.bal_le
    exact ⟨hpool, hdisb, by omega⟩

/-- Witness for C1 at the concrete reachable state `sPaid`. -/
theorem C1_fund_pool_conservation_witness :
    sPaid.totalDisbursed = paidSum sPaid ∧
    sPaid.totalDisbursed ≤ sPaid.totalSubsidyPool :=
  (C1_fund_pool_conservation 1 sPaid ⟨opsPaid, rfl⟩).1

/-- C2: in every reachable state, a milestone's `paid` flag is never reset
by any operation (so it goes `false → true` at most once along any run),
and resolving a dispute with `approve = true` on an already-paid milestone
commits without disbursing again: `totalDisbursed` is unchanged and the
milestone stays paid. -/
theorem C2_at_most_once_payment (d : Nat) (s : State) (hs : Reachable d s) (mid : Nat) :
    (∀ op : Op, (getMilestone s mid).paid = true →
      (getMilestone (apply op s) mid).paid = true) ∧
    (∀ sender s', (getMilestone s mid).paid = true →
      exec (Op.resolveDispute sender mid true) s = Except.ok s' →
      s'.totalDisbursed = s.totalDisbursed ∧ (getMilestone s' mid).paid = true) := by
  have hInv := inv_reachable d s hs
  constructor
  · intro op hp
    exact (stepOk_apply hInv op).2.2 mid hp
  · intro sender s' hp hok
    unfold exec resolveDispute at hok
    dsimp only at hok
    split at hok
    case isFalse => cases hok
    case isTrue =>
      split at hok
      case isFalse => cases hok
      case isTrue =>
        split at hok
        case isFalse => cases hok
        case isTrue =>
          rw [if_pos rfl] at hok
          injection hok with hok
          subst hok
          refine ⟨rfl, ?_⟩
          show ((mupd s.milestones mid _ mid).getD zeroMilestone).paid = true
          rw [mupd_app, if_pos rfl]
          exact hp

/-- Witness for C2 at the concrete reachable state `sDisputedPaid`:
approving the dispute on the paid milestone 1 changes no fund counter. -/
theorem C2_at_most_once_payment_witness :
    sResolvedPaid.totalDisbursed = sDisputedPaid.totalDisbursed ∧
    (getMilestone sResolvedPaid 1).paid = true :=
  (C2_at_most_once_payment 1 sDisputedPaid
    ⟨opsPaid ++ [Op.disputeMilestone 2 1], rfl⟩ 1).2 4 sResolvedPaid rfl rfl

/-- C3 counterexample: `sClawback` is reachable (fund, register, add a
milestone, verify and pay it, dispute it, resolve with `approve = false`)
and there milestone 1 has `paid = true` while its status is `Failed`,
not `Verified`. -/
theorem C3_paid_implies_verified_cex :
    Reachable 1 sClawback ∧
    (getMilestone sClawback 1).paid = true ∧
    (getMilestone sClawback 1).status = MilestoneStatus.Failed :=
  ⟨⟨opsPaid ++ [Op.disputeMilestone 2 1, Op.resolveDispute 4 1 false], rfl⟩, rfl, rfl⟩

/-- C3 amended: in every reachable state a paid milestone is never
`Pending` — payment happens only while `Verified`, but a later dispute
and rejected resolution can move a paid milestone to `Disputed` or
`Failed`. -/
theorem C3_paid_not_pending (d : Nat) (s : State) (hs : Reachable d s) (mid : Nat) :
    (getMilestone s mid).paid = true →
    (getMilestone s mid).status ≠ MilestoneStatus.Pending :=
  (inv_reachable d s hs).paid_st mid

/-- Witness for the amended C3 at the concrete reachable state `sPaid`. -/
theorem C3_paid_not_pending_witness :
    (getMilestone sPaid 1).status ≠ MilestoneStatus.Pending :=
  C3_paid_not_pending 1 sPaid ⟨opsPaid, rfl⟩ 1 rfl

end GHS

namespace GHS

theorem pupd_app (f : Nat → Option Project) (i : Nat) (p : Project) (j : Nat) :
    pupd f i p j = if j = i then some p else f j := rfl

theorem apply_of_error {op : Op} {s : State} {e : String}
    (h : exec op s = Except.error e) : apply op s = s := by
  unfold apply
  rw [h]

theorem payment_insufficient {mid : Nat} {s : State}
    (hstat : (getMilestone s mid).status = MilestoneStatus.Verified)
    (hpaid : (getMilestone s mid).paid = false)
    (hact : (getProject s (getMilestone s mid).projectId).status = ProjectStatus.Active)
    (hbal : s.balance < (getMilestone s mid).subsidyAmount) :
    processMilestonePayment mid s = Except.error "Insufficient contract balance" := by
  unfold processMilestonePayment
  dsimp only
  rw [if_pos hstat, if_pos hpaid, if_pos hact, if_neg (by omega)]

/-- C4 counterexample: in the reachable state `sLowBalance` (pool topped
up, milestone worth 6 added, contract balance drained to 2), a
verification that meets the target fails with the insufficient-balance
revert and the whole transaction rolls back: the milestone is left
`Pending` — not `Verified` with `paid = false` as the claim states. -/
theorem C4_insufficient_funds_cex :
    Reachable 1 sLowBalance ∧
    exec (Op.verifyMilestone 3 1 1500 true 10) sLowBalance
      = Except.error "Insufficient contract balance" ∧
    apply (Op.verifyMilestone 3 1 1500 true 10) sLowBalance = sLowBalance ∧
    (getMilestone (apply (Op.verifyMilestone 3 1 1500 true 10) sLowBalance) 1).status
      = MilestoneStatus.Pending := by
  refine ⟨⟨[Op.addFunds 1 10, Op.registerProject 1 2 "P" "D" 10 0,
    Op.addMilestone 1 1 "M" 6 1000 "src" 100 0, Op.grantRole 1 Role.Oracle 3,
    Op.emergencyWithdraw 1 8 9], rfl⟩, rfl, rfl, rfl⟩

/-- C4 amended: when a verification would succeed (oracle or auditor
caller, milestone `Pending`, before the deadline, `success = true`,
`actualValue ≥ targetValue`, owning project `Active`) but the contract
balance cannot cover the milestone's `subsidyAmount`, the entire
`verifyMilestone` call reverts with "Insufficient contract balance" and
no state changes at all: the milestone remains `Pending` (not `Verified`)
with `paid = false`, and verification can simply be re-attempted before
the deadline; verification success and payment success are not decoupled
outcomes in this code. -/
theorem C4_insufficient_balance_reverts (s : State) (sender mid av now : Nat)
    (hex : 0 < mid ∧ mid < s.nextMilestoneId)
    (hrole : hasRole s sender Role.Oracle = true ∨ hasRole s sender Role.Auditor = true)
    (hpend : (getMilestone s mid).status = MilestoneStatus.Pending)
    (hdl : now ≤ (getMilestone s mid).deadline)
    (htgt : av ≥ (getMilestone s mid).targetValue)
    (hpaid : (getMilestone s mid).paid = false)
    (hact : (getProject s (getMilestone s mid).projectId).status = ProjectStatus.Active)
    (hbal : s.balance < (getMilestone s mid).subsidyAmount) :
    exec (Op.verifyMilestone sender mid av true now) s
      = Except.error "Insufficient contract balance" ∧
    apply (Op.verifyMilestone sender mid av true now) s = s := by
  have hmain : exec (Op.verifyMilestone sender mid av true now) s
      = Except.error "Insufficient contract balance" := by
    show verifyMilestone sender mid av true now s = _
    unfold verifyMilestone
    dsimp only
    rw [if_pos hex, if_pos hrole, if_pos hpend, if_pos hdl, if_pos ⟨rfl, htgt⟩]
    suffices hpay : ∀ t : State,
        t.milestones = mupd s.milestones mid
          { getMilestone s mid with
            actualValue := av, verifiedAt := now, verifiedBy := sender,
            status := MilestoneStatus.Verified } →
        t.projects = s.projects → t.balance = s.balance →
        processMilestonePayment mid t = Except.error "Insufficient contract balance" by
      rw [hpay { s with milestones := (mupd s.milestones mid
        { getMilestone s mid with
          actualValue := av, verifiedAt := now, verifiedBy := sender,
          status := MilestoneStatus.Verified }) } rfl rfl rfl]
      rfl
    intro t htm htp htb
    have e1 : getMilestone t mid = { getMilestone s mid with
        actualValue := av, verifiedAt := now, verifiedBy := sender,
        status := MilestoneStatus.Verified } := by
      rw [getMilestone_eq, htm, mupd_app, if_pos rfl]
      rfl
    refine payment_insufficient ?_ ?_ ?_ ?_
    · rw [e1]
    · rw [e1]
      exact hpaid
    · rw [e1]
      show (getProject t (getMilestone s mid).projectId).status = ProjectStatus.Active
      rw [getProject_eq, htp, ← getProject_eq]
      exact hact
    · rw [e1, htb]
      exact hbal
  exact ⟨hmain, apply_of_error hmain⟩

/-- Witness for the amended C4 at the concrete reachable state
`sLowBalance`. -/
theorem C4_insufficient_balance_reverts_witness :
    exec (Op.verifyMilestone 3 1 1500 true 10) sLowBalance
      = Except.error "Insufficient contract balance" ∧
    apply (Op.verifyMilestone 3 1 1500 true 10) sLowBalance = sLowBalance :=
  C4_insufficient_balance_reverts sLowBalance 3 1 1500 10 (by decide)
    (Or.inl rfl) rfl (by decide) (by decide) rfl rfl (by decide)

end GHS

namespace GHS

set_option maxHeartbeats 1600000 in
theorem addMilestone_admission {a pid : Nat} {ds : String} {amt tv : Nat} {src : String}
    {dl now : Nat} {s s' : State}
    (h : addMilestone a pid ds amt tv src dl now s = Except.ok s') :
    (getProject s pid).disbursedAmount + amt ≤ (getProject s pid).totalSubsidyAmount := by
  unfold addMilestone at h
  dsimp only at h
  split at h
  case isFalse => cases h
  case isTrue =>
    split at h
    case isFalse => cases h
    case isTrue =>
      split at h
      case isFalse => cases h
      case isTrue =>
        split at h
        case isFalse => cases h
        case isTrue =>
          split at h
          case isFalse => cases h
          case isTrue =>
            split at h
            case isFalse => cases h
            case isTrue =>
              split at h
              case isFalse => cases h
              case isTrue =>
                split at h
                case isFalse => cases h
                case isTrue hbudget => exact hbudget

theorem payment_ignores_budget {mid : Nat} {s : State}
    (hstat : (getMilestone s mid).status = MilestoneStatus.Verified)
    (hpaid : (getMilestone s mid).paid = false)
    (hact : (getProject s (getMilestone s mid).projectId).status = ProjectStatus.Active)
    (hbal : (getMilestone s mid).subsidyAmount ≤ s.balance) :
    ∃ s', processMilestonePayment mid s = Except.ok s' ∧
      (getProject s' (getMilestone s mid).projectId).disbursedAmount
        = (getProject s (getMilestone s mid).projectId).disbursedAmount
          + (getMilestone s mid).subsidyAmount := by
  unfold processMilestonePayment
  dsimp only
  rw [if_pos hstat, if_pos hpaid, if_pos hact, if_pos hbal]
  refine ⟨_, rfl, ?_⟩
  rw [ckpc_disbursedAmount]
  show ((pupd s.projects (getMilestone s mid).projectId _
    (getMilestone s mid).projectId).getD zeroProject).disbursedAmount = _
  rw [pupd_app, if_pos rfl]
  rfl

/-- C5 counterexample: `sOverBudget` is reachable — a project with budget
5 receives two milestones worth 5 each (each passes the admission check
while nothing is disbursed) and both are verified and paid — and there
the project has `disbursedAmount = 10 > totalSubsidyAmount = 5`: the
claimed defensive re-check does not exist and the claimed invariant
fails. -/
theorem C5_budget_invariant_cex :
    Reachable 1 sOverBudget ∧
    (getProject sOverBudget 1).disbursedAmount = 10 ∧
    (getProject sOverBudget 1).totalSubsidyAmount = 5 := by
  refine ⟨⟨[Op.addFunds 1 10, Op.registerProject 1 2 "P" "D" 5 0,
    Op.addMilestone 1 1 "A" 5 100 "s" 100 0, Op.addMilestone 1 1 "B" 5 100 "s" 100 0,
    Op.grantRole 1 Role.Oracle 3, Op.verifyMilestone 3 1 200 true 10,
    Op.verifyMilestone 3 2 200 true 10], rfl⟩, rfl, rfl⟩

/-- C5 amended: the budget check
`disbursedAmount + subsidyAmount ≤ totalSubsidyAmount` is enforced only at
milestone admission time (`addMilestone`); `_processMilestonePayment`
performs no defensive re-check, so a verified unpaid milestone of an
active project is paid whenever the contract balance suffices, even when
this drives `disbursedAmount` beyond `totalSubsidyAmount` — which is
reachable when several unpaid milestones admitted within the
then-remaining budget are later all paid. -/
theorem C5_budget_check_admission_only :
    (∀ (a pid : Nat) (ds : String) (amt tv : Nat) (src : String) (dl now : Nat)
      (s s' : State), addMilestone a pid ds amt tv src dl now s = Except.ok s' →
      (getProject s pid).disbursedAmount + amt ≤ (getProject s pid).totalSubsidyAmount) ∧
    (∀ (mid : Nat) (s : State),
      (getMilestone s mid).status = MilestoneStatus.Verified →
      (getMilestone s mid).paid = false →
      (getProject s (getMilestone s mid).projectId).status = ProjectStatus.Active →
      (getMilestone s mid).subsidyAmount ≤ s.balance →
      (getProject s (getMilestone s mid).projectId).disbursedAmount
          + (getMilestone s mid).subsidyAmount
        > (getProject s (getMilestone s mid).projectId).totalSubsidyAmount →
      ∃ s', processMilestonePayment mid s = Except.ok s' ∧
        (getProject s' (getMilestone s mid).projectId).disbursedAmount
          = (getProject s (getMilestone s mid).projectId).disbursedAmount
            + (getMilestone s mid).subsidyAmount) := by
  constructor
  · intro a pid ds amt tv src dl now s s' h
    exact addMilestone_admission h
  · intro mid s hstat hpaid hact hbal _
    exact payment_ignores_budget hstat hpaid hact hbal

set_option maxHeartbeats 4000000 in
/-- Witness for the amended C5: the admission check at the concrete call
adding a milestone worth 3 to the active project of `sLowBalance`, and
the budget-ignoring payment at the hand-built state `sBudgetSpent` whose
budget is already exhausted. -/
theorem C5_budget_check_admission_only_witness :
    ((getProject sLowBalance 1).disbursedAmount + 3
      ≤ (getProject sLowBalance 1).totalSubsidyAmount) ∧
    (∃ s', processMilestonePayment 1 sBudgetSpent = Except.ok s' ∧
      (getProject s' (getMilestone sBudgetSpent 1).projectId).disbursedAmount
        = (getProject sBudgetSpent (getMilestone sBudgetSpent 1).projectId).disbursedAmount
          + (getMilestone sBudgetSpent 1).subsidyAmount) :=
  ⟨C5_budget_check_admission_only.1 1 1 "C" 3 100 "s" 100 50 sLowBalance
      (apply (Op.addMilestone 1 1 "C" 3 100 "s" 100 50) sLowBalance) (by rfl),
    C5_budget_check_admission_only.2 1 sBudgetSpent rfl rfl rfl (by decide) (by decide)⟩

end GHS

namespace GHS

/-- C9: verifying a `Pending` milestone strictly after its deadline
reverts with "Milestone deadline passed" and changes no state at all: the
milestone keeps its `Pending` status and every field (`actualValue`,
`verifiedAt`, `verifiedBy`, `paid`) unchanged, no payment occurs, and no
automatic transition to `Failed` happens. -/
theorem C9_deadline_expired_rejects (s : State) (sender mid av : Nat) (succ : Bool)
    (now : Nat) (hex : 0 < mid ∧ mid < s.nextMilestoneId)
    (hrole : hasRole s sender Role.Oracle = true ∨ hasRole s sender Role.Auditor = true)
    (hpend : (getMilestone s mid).status = MilestoneStatus.Pending)
    (hlate : (getMilestone s mid).deadline < now) :
    exec (Op.verifyMilestone sender mid av succ now) s
      = Except.error "Milestone deadline passed" ∧
    apply (Op.verifyMilestone sender mid av succ now) s = s := by
  have hmain : exec (Op.verifyMilestone sender mid av succ now) s
      = Except.error "Milestone deadline passed" := by
    show verifyMilestone sender mid av succ now s = _
    unfold verifyMilestone
    dsimp only
    rw [if_pos hex, if_pos hrole, if_pos hpend, if_neg (by omega)]
  exact ⟨hmain, apply_of_error hmain⟩

/-- Witness for C9 at the concrete reachable state `sLowBalance`, whose
milestone 1 is `Pending` with deadline 100, verified at time 150. -/
theorem C9_deadline_expired_rejects_witness :
    exec (Op.verifyMilestone 3 1 1500 true 150) sLowBalance
      = Except.error "Milestone deadline passed" ∧
    apply (Op.verifyMilestone 3 1 1500 true 150) sLowBalance = sLowBalance :=
  C9_deadline_expired_rejects sLowBalance 3 1 1500 true 150 (by decide)
    (Or.inl rfl) rfl (by decide)

/-- C10: the `receive()` fallback lets ANY caller grow the pool: for every
state, every sender — no role required — and every value, it succeeds,
adds the value to `totalSubsidyPool` (and the contract balance) and
appends a `FundsAdded` event; while `addFunds` rejects every caller
without the government role.  The government-only gate on `addFunds`
therefore does not cover all paths that grow the pool. -/
theorem C10_receive_bypasses_gate (s : State) (sender value : Nat) :
    (exec (Op.receiveEther sender value) s = Except.ok { s with
      totalSubsidyPool := s.totalSubsidyPool + value,
      balance := s.balance + value,
      events := s.events ++ [Event.FundsAdded value (s.totalSubsidyPool + value)] }) ∧
    (hasRole s sender Role.Government = false →
      exec (Op.addFunds sender value) s
        = Except.error "Only government can perform this action") := by
  constructor
  · rfl
  · intro h
    show addFunds sender value s = _
    unfold addFunds
    rw [if_neg (by rw [h]; exact Bool.false_ne_true)]

/-- Witness for C10: account 7 holds no role in `sPausedReg`, yet its
direct transfer of 3 grows the pool from 10 to 13, while its `addFunds`
call reverts. -/
theorem C10_receive_bypasses_gate_witness :
    (exec (Op.receiveEther 7 3) sPausedReg = Except.ok { sPausedReg with
      totalSubsidyPool := sPausedReg.totalSubsidyPool + 3,
      balance := sPausedReg.balance + 3,
      events := sPausedReg.events
        ++ [Event.FundsAdded 3 (sPausedReg.totalSubsidyPool + 3)] }) ∧
    exec (Op.addFunds 7 3) sPausedReg
      = Except.error "Only government can perform this action" :=
  ⟨(C10_receive_bypasses_gate sPausedReg 7 3).1,
    (C10_receive_bypasses_gate sPausedReg 7 3).2 rfl⟩

end GHS

/-- C6: the pause flag does NOT reject project registrations — a code bug.
In the reachable state `sPausedReg` the `GreenHydrogenSubsidy` contract is
paused, yet `registerProject` succeeds and stores the new project
(`registerProject` carries no `whenNotPaused` modifier; the repository's
own test expects it to revert with "Pausable: paused").  By contrast the
`DataOracle`'s pause flag does reject `submitData`, as the claim states:
in `DO.sPausedOracle` a submission from an authorised provider to a
trusted source reverts with "Pausable: paused". -/
theorem C6_pause_gate_bug :
    GHS.sPausedReg.paused = true ∧
    (∃ s', GHS.exec (GHS.Op.registerProject 1 2 "T" "T" 1 0) GHS.sPausedReg
      = Except.ok s') ∧
    (GHS.getProject (GHS.apply (GHS.Op.registerProject 1 2 "T" "T" 1 0)
      GHS.sPausedReg) 1).name = "T" ∧
    DO.sPausedOracle.paused = true ∧
    DO.submitData 2 "s" 5 "m" 10 DO.sPausedOracle = Except.error "Pausable: paused" :=
  ⟨rfl, ⟨GHS.apply (GHS.Op.registerProject 1 2 "T" "T" 1 0) GHS.sPausedReg, by rfl⟩,
    rfl, rfl, rfl⟩

namespace DO

theorem dupd_app (f : DataId → Option DataPoint) (i : DataId) (d : DataPoint)
    (j : DataId) : dupd f i d j = if j = i then some d else f j := rfl

theorem getDataPoint_eq (s : State) (i : DataId) :
    getDataPoint s i = (s.dataPoints i).getD zeroDataPoint := rfl

end DO

/-- C7 counterexample: after the reachable oracle trace `DO.sSubmitted2`
— two `submitData` calls by provider 2 for source "s" with the same value
5 at the same timestamp 10 (only the metadata differs) — the two stored
submissions share one id: the history of "s" holds the same id twice (so
it is not duplicate-free), and the second submission has overwritten the
first data point's metadata. -/
theorem C7_duplicate_id_cex :
    DO.sSubmitted2.sourceDataHistory "s"
      = [DO.mkDataId "s" 5 10 2, DO.mkDataId "s" 5 10 2] ∧
    ¬ (DO.sSubmitted2.sourceDataHistory "s").Nodup ∧
    (DO.getDataPoint DO.sSubmitted2 (DO.mkDataId "s" 5 10 2)).metadata = "m2" := by
  refine ⟨rfl, ?_, rfl⟩
  intro h
  exact (List.nodup_cons.mp h).1 (List.mem_singleton.mpr rfl)

/-- C7 amended: every successful `submitData` stores a `DataPoint` with
`isVerified = false` and appends exactly one id to that source's history
(other histories unchanged); the id is the deterministic function
`mkDataId` of (source, value, timestamp, submitter), and two ids coincide
only when those four components all coincide — so ids are distinct
whenever the tuples differ, but two submissions sharing the whole tuple
(same provider, same value, same block timestamp) collide: the later
overwrites the earlier data point and the history then holds duplicates
(see the counterexample). -/
theorem C7_submit_postcondition (s : DO.State) (sender : Nat) (source : String)
    (value : Nat) (metadata : String) (now : Nat) (s' : DO.State)
    (h : DO.submitData sender source value metadata now s = Except.ok s') :
    s'.sourceDataHistory source
      = s.sourceDataHistory source ++ [DO.mkDataId source value now sender] ∧
    (DO.getDataPoint s' (DO.mkDataId source value now sender)).isVerified = false ∧
    (∀ k, k ≠ source → s'.sourceDataHistory k = s.sourceDataHistory k) ∧
    (∀ src2 v2 n2 p2, DO.mkDataId src2 v2 n2 p2 = DO.mkDataId source value now sender →
      src2 = source ∧ v2 = value ∧ n2 = now ∧ p2 = sender) := by
  unfold DO.submitData at h
  dsimp only at h
  split at h
  case isFalse => cases h
  case isTrue =>
    split at h
    case isFalse => cases h
    case isTrue =>
      split at h
      case isTrue => cases h
      case isFalse =>
        injection h with h
        subst h
        refine ⟨?_, ?_, ?_, ?_⟩
        · show (if source = source then _ else _) = _
          rw [if_pos rfl]
        · rw [DO.getDataPoint_eq]
          show ((DO.dupd s.dataPoints (DO.mkDataId source value now sender) _
            (DO.mkDataId source value now sender)).getD DO.zeroDataPoint).isVerified
              = false
          rw [DO.dupd_app, if_pos rfl]
          rfl
        · intro k hk
          show (if k = source then _ else _) = _
          rw [if_neg hk]
        · intro src2 v2 n2 p2 heq
          simp only [DO.mkDataId, DO.DataId.mk.injEq] at heq
          exact heq

/-- Witness for the amended C7 at the concrete oracle state `DO.sTrusted`
with the first submission of the counterexample trace. -/
theorem C7_submit_postcondition_witness :
    DO.sSubmitted1.sourceDataHistory "s"
      = DO.sTrusted.sourceDataHistory "s" ++ [DO.mkDataId "s" 5 10 2] ∧
    (DO.getDataPoint DO.sSubmitted1 (DO.mkDataId "s" 5 10 2)).isVerified = false :=
  ⟨(C7_submit_postcondition DO.sTrusted 2 "s" 5 "m1" 10 DO.sSubmitted1 rfl).1,
    (C7_submit_postcondition DO.sTrusted 2 "s" 5 "m1" 10 DO.sSubmitted1 rfl).2.1⟩

/-- C8: `getVerifiedData s source a b` returns exactly the entries of that
source's history whose data point is verified with timestamp in `[a, b]`
inclusive — characterised pointwise by membership, with the output a
sublist of the history (original submission order preserved) and the
returned values those of the returned ids — and `getAggregateValue`
returns exactly the sum of those values and their count.  Both functions
are pure: they map a state to a result without producing a new state. -/
theorem C8_query_and_aggregate (s : DO.State) (source : String) (a b : Nat) :
    (∀ i, i ∈ (DO.getVerifiedData s source a b).1 ↔
      (i ∈ s.sourceDataHistory source ∧ (DO.getDataPoint s i).isVerified = true ∧
        a ≤ (DO.getDataPoint s i).timestamp ∧ (DO.getDataPoint s i).timestamp ≤ b)) ∧
    (DO.getVerifiedData s source a b).1.Sublist (s.sourceDataHistory source) ∧
    (DO.getVerifiedData s source a b).2
      = (DO.getVerifiedData s source a b).1.map (fun i => (DO.getDataPoint s i).value) ∧
    DO.getAggregateValue s source a b
      = ((DO.getVerifiedData s source a b).2.sum,
          (DO.getVerifiedData s source a b).1.length) := by
  refine ⟨?_, ?_, rfl, ?_⟩
  · intro i
    simp [DO.getVerifiedData, DO.inRangeVerified, List.mem_filter,
      Bool.and_eq_true, decide_eq_true_eq, and_assoc]
  · exact List.filter_sublist _
  · show (_, _) = (_, _)
    rw [List.sum_eq_foldl]
